import Mathlib

/-!
# Checkpoint synchronization engine: a shallow embedding

A Lean model of the checkpoint transfer code in `training/gcp_utils.py`
and `training/hf_utils.py`: the Python string and `os.path` primitives the
code uses, the GCS fetch/upload routines, the Hugging Face fetch routine,
and theorems about their listing, path-mapping, directory-creation and
error-propagation behaviour.

Remote I/O (blob listing, blob download/upload) is passed in as explicit
data: a listing is a `List String` of object keys, and a fetch is a
function `String → Except TErr Unit` that either succeeds or raises a
transfer error, mirroring the exceptions the Python client can raise.
-/

namespace CkptSync

/-! ## Python string primitives, modelled over character lists -/

/-- `str.split(sep)` for a single-character separator: splits `cs` at every
occurrence of `c`; the empty list of characters yields `[[]]`, as
`"".split('/') == ['']` in Python. -/
def splitOnChar (c : Char) : List Char → List (List Char)
  | [] => [[]]
  | x :: xs =>
    match splitOnChar c xs with
    | [] => [[]]
    | h :: t => if x = c then [] :: h :: t else (x :: h) :: t

/-- `s.split('/')` as a list of strings. -/
def pySplitSlash (s : String) : List String :=
  (splitOnChar '/' s.data).map fun l => String.mk l

/-- Python `s.startswith(t)`. -/
def pyStartswith (s t : String) : Bool :=
  t.data.isPrefixOf s.data

/-- Python `s.endswith(t)`. -/
def pyEndswith (s t : String) : Bool :=
  t.data.isSuffixOf s.data

/-- Python `s.strip(c)` for a single strip character: drops leading and
trailing occurrences of `c`. -/
def pyStripChar (c : Char) (s : String) : String :=
  String.mk (((s.data.dropWhile (· == c)).reverse.dropWhile (· == c)).reverse)

/-! ## `os.path` primitives (POSIX flavour) -/

/-- `os.path.basename`: everything after the last `/`. -/
def osPathBasename (s : String) : String :=
  (pySplitSlash s).getLastD ""

/-- `os.path.join` for two components, as `posixpath.join` computes it:
an absolute second component discards the first; otherwise a `/` is
inserted unless the first component is empty or already ends in `/`. -/
def osPathJoin (a b : String) : String :=
  if pyStartswith b "/" then b
  else if a = "" ∨ pyEndswith a "/" = true then a ++ b
  else a ++ "/" ++ b

/-- The characters of a path up to and including its last `/` (all of it
when it has no `/`): the `head` slice `posixpath.dirname` starts from. -/
def dirnameHead (cs : List Char) : List Char :=
  (cs.reverse.dropWhile (· != '/')).reverse

/-- `os.path.dirname`: the part before the last `/`, with trailing slashes
stripped unless the result consists of slashes only. -/
def osPathDirname (s : String) : String :=
  if (dirnameHead s.data).all (· == '/') then String.mk (dirnameHead s.data)
  else String.mk (((dirnameHead s.data).reverse.dropWhile (· == '/')).reverse)

/-- `posixpath.normpath` restricted to the segment list of an absolute
path: drops empty and `.` segments and lets `..` cancel the segment
before it (at the root, `..` stays at the root). -/
def normSegsAux : List String → List String → List String
  | [], acc => acc.reverse
  | "" :: rest, acc => normSegsAux rest acc
  | "." :: rest, acc => normSegsAux rest acc
  | ".." :: rest, acc =>
    match acc with
    | [] => normSegsAux rest []
    | _ :: t => normSegsAux rest t
  | seg :: rest, acc => normSegsAux rest (seg :: acc)

/-- The normalized segment list of an absolute path. -/
def normalize (s : String) : List String :=
  normSegsAux (pySplitSlash s) []

/-- `p` lies strictly below `root` once both absolute paths are
normalized. -/
def isDescendantOf (root p : String) : Bool :=
  (normalize root).isPrefixOf (normalize p) && normalize p != normalize root

/-! ## Transfer errors and the storage client -/

/-- The failure kinds a remote transfer can raise (the spec's error
taxonomy for per-item transfer faults). -/
inductive TErr where
  | remoteTransport : TErr
  | remoteNotFound : TErr
deriving DecidableEq, Repr

deriving instance DecidableEq for Except

/-- A GCS client is either authenticated from a service-account key file
or built from ambient/default credentials. -/
inductive StorageClient where
  | serviceAccount (keyFile : String) : StorageClient
  | ambientDefault : StorageClient
deriving DecidableEq, Repr

/-- `get_storage_client` from `training/gcp_utils.py`: a client from the
key file when `key_file_path` is truthy (non-empty) and the file exists,
otherwise the default-credentials client. `pathExists` stands for
`os.path.exists`. -/
def get_storage_client (keyFilePath : String) (pathExists : String → Bool) :
    StorageClient :=
  if keyFilePath ≠ "" ∧ pathExists keyFilePath = true then
    .serviceAccount keyFilePath
  else
    .ambientDefault

/-! ## Local directory creation

`os.makedirs(path, exist_ok=...)` is modelled at the granularity of one
path over a list of already-existing directories: the directory is added
when absent, and the call raises (`FileExistsError`) exactly when the
directory already exists and `exist_ok` is false. -/

/-- The directory list after `os.makedirs(p, ...)`. -/
def ensureLocalDirectory (p : String) (dirs : List String) : List String :=
  if p ∈ dirs then dirs else p :: dirs

/-- Whether `os.makedirs(p, exist_ok=exist_ok)` raises. -/
def mkdirFails (exist_ok : Bool) (p : String) (dirs : List String) : Bool :=
  !exist_ok && decide (p ∈ dirs)

/-! ## The GCS fetch (`fetch_checkpoint_from_gcs`) -/

/-- The subfolder name: `checkpoint_path.strip('/').split('/')[-1]`. -/
def gcsSubfolder (checkpointPath : String) : String :=
  (pySplitSlash (pyStripChar '/' checkpointPath)).getLastD ""

/-- `checkpoint_output_dir = os.path.join(output_dir, subfolder_name)`. -/
def gcsCheckpointOutputDir (outputDir checkpointPath : String) : String :=
  osPathJoin outputDir (gcsSubfolder checkpointPath)

/-- `local_file_path = os.path.join(checkpoint_output_dir,
os.path.basename(blob.name))`. -/
def gcsLocalFilePath (ckptOutDir blobName : String) : String :=
  osPathJoin ckptOutDir (osPathBasename blobName)

/-- The download loop of `fetch_checkpoint_from_gcs`: blobs whose name
ends in `/` are skipped; every other blob is downloaded to
`gcsLocalFilePath`. The loop has no exception handler, so the first
failing download propagates and aborts the remaining iterations: the
result is the list of local paths written, in order, paired with the
uncaught error, if any. -/
def gcsLoop (ckptOutDir : String) (fetch : String → Except TErr Unit) :
    List String → List String × Option TErr
  | [] => ([], none)
  | b :: rest =>
    if pyEndswith b "/" then gcsLoop ckptOutDir fetch rest
    else
      match fetch b with
      | .ok _ =>
        let r := gcsLoop ckptOutDir fetch rest
        (gcsLocalFilePath ckptOutDir b :: r.1, r.2)
      | .error e => ([], some e)

/-- `fetch_checkpoint_from_gcs`: resolves the checkpoint output
directory, creates it with `os.makedirs(..., exist_ok=True)`, and runs
the download loop over the listing.  Returns the directories created,
the files written and the uncaught error, if any. -/
def fetch_checkpoint_from_gcs (checkpointPath outputDir : String)
    (fetch : String → Except TErr Unit) (listing : List String) :
    List String × List String × Option TErr :=
  let ckptOut := gcsCheckpointOutputDir outputDir checkpointPath
  let dirs := ensureLocalDirectory ckptOut []
  let r := gcsLoop ckptOut fetch listing
  (dirs, r.1, r.2)

/-! ## The GCS upload (`upload_checkpoint_to_gcs`)

The local checkpoint directory is a tree; `os.walk` discovers every file
in it, and each file is uploaded to
`os.path.join(checkpoint_path, os.path.relpath(local_path, local_dir))`.
Paths are modelled as segment lists (filesystem entry names contain no
separator, so joining a prefix with a relative path is segment
concatenation). -/

/-- One entry of a local directory: a file or a subdirectory. -/
inductive FileTree where
  | file (name : String) : FileTree
  | dir (name : String) (entries : List FileTree) : FileTree

/-- The name of a directory entry. -/
def entryName : FileTree → String
  | .file n => n
  | .dir n _ => n

mutual

/-- The relative paths (as segment lists) of the files below one entry,
as `os.walk` discovers them. -/
def walkTree : FileTree → List (List String)
  | .file n => [[n]]
  | .dir n es => (walkList es).map fun p => n :: p

/-- The relative paths of the files below a list of entries. -/
def walkList : List FileTree → List (List String)
  | [] => []
  | t :: ts => walkTree t ++ walkList ts

end

mutual

/-- Well-formedness of one entry as a filesystem tree. -/
def treeWf : FileTree → Bool
  | .file _ => true
  | .dir _ es => listWf es

/-- Well-formedness of a directory listing: entry names at each level
are distinct (as on a real filesystem) and subtrees are well-formed. -/
def listWf : List FileTree → Bool
  | [] => true
  | t :: ts =>
    treeWf t && !((ts.map entryName).contains (entryName t)) && listWf ts

end

/-- `upload_checkpoint_to_gcs`: one upload per file `os.walk` discovers,
to the blob key `checkpoint_path ++ relative_path`, read from the local
path `local_dir ++ relative_path` (segment lists). -/
def upload_checkpoint_to_gcs (checkpointSegs localSegs : List String)
    (tree : List FileTree) : List (List String × List String) :=
  (walkList tree).map fun rel => (checkpointSegs ++ rel, localSegs ++ rel)

/-- A small concrete checkpoint directory. -/
def exampleTree : List FileTree :=
  [.dir "sub" [.file "model.bin"], .file "config.json"]

/-! ## The Hugging Face fetch (`fetch_checkpoint_from_huggingface`) -/

/-- The file filter: `[f for f in files if f.startswith(checkpoint_path)]`. -/
def hfSelect (checkpointPath : String) (files : List String) : List String :=
  files.filter fun f => pyStartswith f checkpointPath

/-- `local_path = os.path.join(output_dir, file)`. -/
def hfLocalPath (outputDir f : String) : String :=
  osPathJoin outputDir f

/-- The work items of the Hugging Face fetch: each selected repository
file paired with the local path it is downloaded to. -/
def hfPlan (checkpointPath outputDir : String) (files : List String) :
    List (String × String) :=
  (hfSelect checkpointPath files).map fun f => (f, hfLocalPath outputDir f)

/-- The download loop of `fetch_checkpoint_from_huggingface`: files are
downloaded in order; the loop body is inside the function's single
`try`, so the first failing download aborts the remaining iterations.
The result is the list of local paths written, in order, paired with the
error the `except` clause caught (and printed), if any. -/
def hfLoop (outputDir : String) (download : String → Except TErr Unit) :
    List String → List String × Option TErr
  | [] => ([], none)
  | f :: rest =>
    match download f with
    | .ok _ =>
      let r := hfLoop outputDir download rest
      (hfLocalPath outputDir f :: r.1, r.2)
    | .error e => ([], some e)

/-- `fetch_checkpoint_from_huggingface`: lists the repository files,
filters them by the checkpoint path and downloads each; any raised error
is caught by the function-level `except` and reported, not re-raised. -/
def fetch_checkpoint_from_huggingface (checkpointPath outputDir : String)
    (listRepoFiles : Except TErr (List String))
    (download : String → Except TErr Unit) :
    List String × Option TErr :=
  match listRepoFiles with
  | .error e => ([], some e)
  | .ok files => hfLoop outputDir download (hfSelect checkpointPath files)

/-- The Hugging Face download loop with the directory state threaded
through: before each download the code runs
`os.makedirs(os.path.dirname(local_path), exist_ok=True)`. Returns the
final directory list, the files written and the caught error, if any. -/
def hfLoopFs (outputDir : String) (download : String → Except TErr Unit)
    (dirs : List String) :
    List String → List String × List String × Option TErr
  | [] => (dirs, [], none)
  | f :: rest =>
    let lp := hfLocalPath outputDir f
    let dirs' := ensureLocalDirectory (osPathDirname lp) dirs
    match download f with
    | .ok _ =>
      let r := hfLoopFs outputDir download dirs' rest
      (r.1, lp :: r.2.1, r.2.2)
    | .error e => (dirs', [], some e)

/-! ## The concurrent transfer executor

Modelled from the spec: no concurrency parameter or worker pool exists in
`training/` (both fetch loops are sequential), so the Concurrent Transfer
Executor of spec §4.4/§5 is modelled from the spec's words.  `concurrency`
bounds the number of simultaneously in-flight transfers: the executor
takes the work items in rounds of at most `concurrency`, each round's
transfers run together and complete in an unspecified order (the model
takes one concrete completion order per round), and each item's outcome
is recorded in the report.  Per-item transfer is a pure function of the
item, as in §4.1. -/

/-- The outcome of one work item: `Success` with the destination path, or
`Failure` with the key and the error. -/
inductive TransferOutcome where
  | success (localPath : String) : TransferOutcome
  | failure (key : String) (e : TErr) : TransferOutcome
deriving DecidableEq, Repr

/-- The outcome of one `(key, localPath)` work item under a given fetch. -/
def itemOutcome (fetch : String → Except TErr Unit)
    (wi : String × String) : TransferOutcome :=
  match fetch wi.1 with
  | .ok _ => .success wi.2
  | .error e => .failure wi.1 e

/-- The rounds of the bounded worker pool: at most `c` work items are in
flight at once, so the queue is consumed `c` items at a time.  `fuel`
only drives the recursion; with `fuel = items.length` and `c ≥ 1` it
never runs out. -/
def roundsAux {α : Type} (fuel c : Nat) (items : List α) : List (List α) :=
  match fuel, items with
  | _, [] => []
  | 0, l => [l]
  | fuel + 1, l => l.take c :: roundsAux fuel c (l.drop c)

/-- The rounds of a run with concurrency `c`. -/
def rounds {α : Type} (c : Nat) (items : List α) : List (List α) :=
  roundsAux items.length c items

/-- The completion order of a run with concurrency `c`: the items of each
round complete in an order the scheduler does not fix (concretely, each
round is reversed), rounds complete in sequence. -/
def schedule {α : Type} (c : Nat) (items : List α) : List α :=
  ((rounds c items).map List.reverse).flatten

/-- The executor: the transfer report's outcome list, in completion
order, of running `items` with `concurrency = c`. -/
def executeConc (c : Nat) (fetch : String → Except TErr Unit)
    (items : List (String × String)) : List TransferOutcome :=
  (schedule c items).map (itemOutcome fetch)

/-- A fetch that raises `RemoteTransportError` for the key `"b"` and
succeeds on every other key: the engineered per-item failure of the
spec's fault-isolation property. -/
def failsOnB : String → Except TErr Unit := fun k =>
  if k = "b" then .error .remoteTransport else .ok ()


/-! ## Helper lemmas -/

/-- The Hugging Face download loop on a listing whose first failing item
is `bad`: the items before `bad` are downloaded, the error is raised at
`bad`, and the items after `bad` are never reached. -/
theorem hfLoop_abort (out : String) (download : String → Except TErr Unit)
    (pre post : List String) (bad : String) (e : TErr)
    (hpre : ∀ k ∈ pre, download k = .ok ())
    (hbad : download bad = .error e) :
    hfLoop out download (pre ++ bad :: post)
      = (pre.map (hfLocalPath out), some e) := by
  induction pre with
  | nil => simp [hfLoop, hbad]
  | cons k rest ih =>
    have hk : download k = .ok () := hpre k (by simp)
    have ih' := ih fun x hx => hpre x (by simp [hx])
    simp [hfLoop, hk, ih']

/-- The GCS download loop on a listing of non-marker blobs whose first
failing item is `bad`: the blobs before `bad` are downloaded, the error
propagates at `bad`, and the blobs after `bad` are never reached. -/
theorem gcsLoop_abort (ckptOut : String) (fetch : String → Except TErr Unit)
    (pre post : List String) (bad : String) (e : TErr)
    (hpre : ∀ k ∈ pre, fetch k = .ok ())
    (hmk : ∀ k ∈ pre, pyEndswith k "/" = false)
    (hbad : fetch bad = .error e)
    (hbadm : pyEndswith bad "/" = false) :
    gcsLoop ckptOut fetch (pre ++ bad :: post)
      = (pre.map (gcsLocalFilePath ckptOut), some e) := by
  induction pre with
  | nil => simp [gcsLoop, hbad, hbadm]
  | cons k rest ih =>
    have hk : fetch k = .ok () := hpre k (by simp)
    have hm : pyEndswith k "/" = false := hmk k (by simp)
    have ih' := ih (fun x hx => hpre x (by simp [hx]))
      (fun x hx => hmk x (by simp [hx]))
    simp [gcsLoop, hk, hm, ih']

/-- The GCS download loop when every fetch succeeds: one download per
non-marker blob, at its mapped path, and no error. -/
theorem gcsLoop_all_ok (ckptOut : String) (fetch : String → Except TErr Unit)
    (listing : List String) (h : ∀ b ∈ listing, fetch b = .ok ()) :
    gcsLoop ckptOut fetch listing
      = ((listing.filter fun b => !pyEndswith b "/").map
          (gcsLocalFilePath ckptOut), none) := by
  induction listing with
  | nil => simp [gcsLoop]
  | cons b rest ih =>
    have hb : fetch b = .ok () := h b (by simp)
    have ih' := ih fun x hx => h x (by simp [hx])
    by_cases hm : pyEndswith b "/" = true
    · simp [gcsLoop, hm, ih', List.filter_cons]
    · simp at hm
      simp [gcsLoop, hm, hb, ih', List.filter_cons]

/-- Consuming the queue in rounds loses and duplicates nothing: the
rounds flatten back to the original work list, whatever the fuel. -/
theorem roundsAux_flatten {α : Type} (c : Nat) :
    ∀ (fuel : Nat) (items : List α), (roundsAux fuel c items).flatten = items := by
  intro fuel
  induction fuel with
  | zero =>
    intro items
    cases items <;> simp [roundsAux]
  | succ n ih =>
    intro items
    cases items with
    | nil => simp [roundsAux]
    | cons a as =>
      simp [roundsAux, ih]

/-- Reversing each round permutes the flattened list. -/
theorem flatten_map_reverse_perm {α : Type} (L : List (List α)) :
    ((L.map List.reverse).flatten).Perm L.flatten := by
  induction L with
  | nil => simp
  | cons h t ih =>
    simpa using (h.reverse_perm).append ih

/-- The completion order of a run is a permutation of its work list. -/
theorem schedule_perm {α : Type} (c : Nat) (items : List α) :
    (schedule c items).Perm items := by
  unfold schedule rounds
  have h := flatten_map_reverse_perm (roundsAux items.length c items)
  rw [roundsAux_flatten] at h
  exact h

/-- With concurrency 1 every round is a single item. -/
theorem roundsAux_one {α : Type} (l : List α) :
    roundsAux l.length 1 l = l.map fun a => [a] := by
  induction l with
  | nil => simp [roundsAux]
  | cons a as ih => simp [roundsAux, ih]

/-- Concurrency 1 degrades to fully sequential execution: the completion
order is the submission order. -/
theorem schedule_one {α : Type} (items : List α) :
    schedule 1 items = items := by
  simp only [schedule, rounds, roundsAux_one]
  induction items with
  | nil => simp
  | cons a as ih => simpa using ih

/-- No round holds more than `c` work items (for `c ≥ 1` and enough
fuel): concurrency bounds the number of in-flight transfers. -/
theorem roundsAux_bound {α : Type} (c : Nat) (hc : 1 ≤ c) :
    ∀ (fuel : Nat) (items : List α), items.length ≤ fuel →
      ∀ r ∈ roundsAux fuel c items, r.length ≤ c := by
  intro fuel
  induction fuel with
  | zero =>
    intro items hlen r hr
    have : items = [] := List.eq_nil_of_length_eq_zero (Nat.le_zero.mp hlen)
    subst this
    simp [roundsAux] at hr
  | succ n ih =>
    intro items hlen r hr
    cases items with
    | nil => simp [roundsAux] at hr
    | cons a as =>
      simp only [roundsAux, List.mem_cons] at hr
      rcases hr with rfl | hr
      · simp
      · exact ih ((a :: as).drop c) (by simp at hlen ⊢; omega) r hr

/-- `dropWhile` runs past a block of satisfying elements and stops at the
first failing one. -/
theorem dropWhile_append_all {α : Type} (p : α → Bool) (l₁ : List α) (y : α)
    (l₂ : List α) (h1 : ∀ x ∈ l₁, p x = true) (h2 : p y = false) :
    (l₁ ++ y :: l₂).dropWhile p = y :: l₂ := by
  induction l₁ with
  | nil => simp [List.dropWhile_cons, h2]
  | cons a as ih =>
    have ha : p a = true := h1 a (by simp)
    simp [List.dropWhile_cons, ha, ih fun x hx => h1 x (by simp [hx])]

/-- `str.split` never returns an empty list of parts. -/
theorem splitOnChar_ne_nil (c : Char) (cs : List Char) :
    splitOnChar c cs ≠ [] := by
  cases cs with
  | nil => simp [splitOnChar]
  | cons x xs =>
    cases h : splitOnChar c xs with
    | nil => simp [splitOnChar, h]
    | cons hh tt => by_cases hx : x = c <;> simp [splitOnChar, h, hx]

/-- No part produced by `str.split(sep)` contains the separator. -/
theorem splitOnChar_no_sep (c : Char) (cs : List Char) :
    ∀ l ∈ splitOnChar c cs, c ∉ l := by
  induction cs with
  | nil =>
    intro l hl
    simp [splitOnChar] at hl
    simp [hl]
  | cons x xs ih =>
    intro l hl
    cases hsp : splitOnChar c xs with
    | nil => exact absurd hsp (splitOnChar_ne_nil c xs)
    | cons h t =>
      simp only [splitOnChar, hsp] at hl
      by_cases hx : x = c
      · rw [if_pos hx] at hl
        rcases List.mem_cons.mp hl with rfl | hl'
        · simp
        · exact ih l (hsp ▸ hl')
      · rw [if_neg hx] at hl
        rcases List.mem_cons.mp hl with rfl | hl'
        · intro hc
          rcases List.mem_cons.mp hc with rfl | hc'
          · exact hx rfl
          · exact ih h (hsp ▸ List.mem_cons_self h t) hc'
        · exact ih l (hsp ▸ List.mem_cons_of_mem h hl')

/-- `getLastD` is a member of the list or the default. -/
theorem getLastD_mem_or {β : Type} (l : List β) (d : β) :
    l.getLastD d ∈ l ∨ l.getLastD d = d := by
  induction l generalizing d with
  | nil => simp
  | cons a as ih =>
    rw [List.getLastD_cons]
    rcases ih a with h | h
    · exact Or.inl (List.mem_cons_of_mem _ h)
    · exact Or.inl (by rw [h]; simp)

/-- A basename contains no path separator. -/
theorem osPathBasename_no_sep (s : String) :
    ∀ ch ∈ (osPathBasename s).data, ch ≠ '/' := by
  intro ch hch
  unfold osPathBasename pySplitSlash at hch
  rcases getLastD_mem_or ((splitOnChar '/' s.data).map fun l => String.mk l) ""
    with h | h
  · rw [List.mem_map] at h
    obtain ⟨l, hl, hmk⟩ := h
    rw [← hmk] at hch
    intro hslash
    exact splitOnChar_no_sep '/' s.data l hl (hslash ▸ hch)
  · rw [h] at hch
    simp at hch

/-- `os.path.dirname` undoes `os.path.join`: joining a non-empty
directory (not ending in `/`) with a separator-free name and taking the
dirname gives the directory back. -/
theorem osPathDirname_join (a base : String) (ha : a ≠ "")
    (has : pyEndswith a "/" = false)
    (hb : ∀ ch ∈ base.data, ch ≠ '/') :
    osPathDirname (osPathJoin a base) = a := by
  obtain ⟨c, r, har, hc⟩ :
      ∃ c r, a.data.reverse = c :: r ∧ (c == '/') = false := by
    have hne : a.data ≠ [] := fun h => ha (by cases a; simp_all)
    cases har : a.data.reverse with
    | nil =>
      exact absurd (by simpa using congrArg List.reverse har) hne
    | cons c r =>
      refine ⟨c, r, rfl, ?_⟩
      have hs := has
      unfold pyEndswith at hs
      rw [show ("/" : String).data = ['/'] from rfl] at hs
      rw [show (List.isSuffixOf ['/'] a.data)
            = List.isPrefixOf ['/'] a.data.reverse from by
          simp [List.isSuffixOf]] at hs
      rw [har] at hs
      simp only [List.isPrefixOf, Bool.and_eq_false_iff] at hs
      rcases hs with hs | hs
      · exact beq_eq_false_iff_ne.mpr (Ne.symm (beq_eq_false_iff_ne.mp hs))
      · simp [List.isPrefixOf] at hs
  have hbs : pyStartswith base "/" = false := by
    unfold pyStartswith
    rw [show ("/" : String).data = ['/'] from rfl]
    cases hbase : base.data with
    | nil => simp [List.isPrefixOf]
    | cons x xs =>
      have hx : x ≠ '/' := hb x (by rw [hbase]; simp)
      simp [List.isPrefixOf, beq_eq_false_iff_ne, Ne.symm hx]
  have hjoin : osPathJoin a base = a ++ "/" ++ base := by
    unfold osPathJoin
    rw [if_neg (by simp [hbs]), if_neg ?_]
    rintro (h | h)
    · exact ha h
    · rw [has] at h
      exact Bool.false_ne_true h
  have hdata : (a ++ "/" ++ base).data = a.data ++ '/' :: base.data := by
    simp [String.data_append]
  have hhead : dirnameHead (a.data ++ '/' :: base.data) = a.data ++ ['/'] := by
    unfold dirnameHead
    have hrev : (a.data ++ '/' :: base.data).reverse
        = base.data.reverse ++ '/' :: a.data.reverse := by
      simp [List.reverse_append]
    rw [hrev, dropWhile_append_all _ _ _ _ ?_ (by simp), List.reverse_cons,
      List.reverse_reverse]
    intro x hx
    exact bne_iff_ne.mpr (hb x (List.mem_reverse.mp hx))
  unfold osPathDirname
  rw [hjoin, hdata, hhead]
  have hall : ((a.data ++ ['/']).all fun ch => ch == '/') = false := by
    rw [List.all_eq_false]
    refine ⟨c, List.mem_append_left _ ?_, by simp [hc]⟩
    rw [← List.mem_reverse, har]
    simp
  rw [if_neg (by simp [hall])]
  have h2 : ((a.data ++ ['/']).reverse.dropWhile fun ch => ch == '/')
      = a.data.reverse := by
    rw [List.reverse_append]
    simp only [List.reverse_cons, List.reverse_nil, List.nil_append,
      List.singleton_append, List.dropWhile_cons]
    rw [har]
    simp [List.dropWhile_cons, hc]
  rw [h2, List.reverse_reverse]

/-- Every file the GCS loop writes is written at the mapped path of some
non-marker blob of the listing. -/
theorem gcsLoop_written_shape (ckptOut : String)
    (fetch : String → Except TErr Unit) (listing : List String) :
    ∀ q ∈ (gcsLoop ckptOut fetch listing).1,
      ∃ b, q = gcsLocalFilePath ckptOut b := by
  induction listing with
  | nil => simp [gcsLoop]
  | cons b rest ih =>
    intro q hq
    simp only [gcsLoop] at hq
    by_cases hm : pyEndswith b "/" = true
    · rw [if_pos hm] at hq
      exact ih q hq
    · rw [if_neg hm] at hq
      cases hf : fetch b with
      | ok u =>
        rw [hf] at hq
        rcases List.mem_cons.mp hq with rfl | hq'
        · exact ⟨b, rfl⟩
        · exact ih q hq'
      | error e =>
        rw [hf] at hq
        simp at hq

/-- `os.makedirs` leaves the requested directory present. -/
theorem ensureLocalDirectory_mem (p : String) (dirs : List String) :
    p ∈ ensureLocalDirectory p dirs := by
  by_cases h : p ∈ dirs <;> simp [ensureLocalDirectory, h]

/-- `os.makedirs` removes no existing directory. -/
theorem ensureLocalDirectory_superset {x : String} {dirs : List String}
    (p : String) (hx : x ∈ dirs) : x ∈ ensureLocalDirectory p dirs := by
  by_cases h : p ∈ dirs <;> simp [ensureLocalDirectory, h, hx]

/-- The Hugging Face download loop only ever adds directories: every
directory present when it starts is present when it stops. -/
theorem hfLoopFs_dirs_mono (out : String)
    (download : String → Except TErr Unit) :
    ∀ (files : List String) (dirs : List String) (x : String), x ∈ dirs →
      x ∈ (hfLoopFs out download dirs files).1 := by
  intro files
  induction files with
  | nil =>
    intro dirs x hx
    simpa [hfLoopFs] using hx
  | cons f rest ih =>
    intro dirs x hx
    cases hd : download f with
    | ok u =>
      simp only [hfLoopFs, hd]
      exact ih _ x (ensureLocalDirectory_superset _ hx)
    | error e =>
      simp only [hfLoopFs, hd]
      exact ensureLocalDirectory_superset _ hx

/-- In the Hugging Face download loop, every written file's directory
was created (by the per-file `os.makedirs(os.path.dirname(local_path),
exist_ok=True)` that precedes its download) and is among the directories
present when the loop stops. -/
theorem hfLoopFs_dir_before_write (out : String)
    (download : String → Except TErr Unit) :
    ∀ (files : List String) (dirs : List String),
      ∀ q ∈ (hfLoopFs out download dirs files).2.1,
        osPathDirname q ∈ (hfLoopFs out download dirs files).1 := by
  intro files
  induction files with
  | nil =>
    intro dirs q hq
    simp [hfLoopFs] at hq
  | cons f rest ih =>
    intro dirs q hq
    cases hd : download f with
    | ok u =>
      simp only [hfLoopFs, hd, List.mem_cons] at hq ⊢
      rcases hq with rfl | hq'
      · exact hfLoopFs_dirs_mono out download rest _ _
          (ensureLocalDirectory_mem _ dirs)
      · exact ih _ q hq'
    | error e =>
      simp [hfLoopFs, hd] at hq

/-- In a list without duplicates, a member is counted exactly once. -/
theorem count_eq_one_of_nodup_of_mem {α : Type} [BEq α] [LawfulBEq α]
    {l : List α} (h : l.Nodup) {a : α} (ha : a ∈ l) : l.count a = 1 := by
  induction l with
  | nil => simp at ha
  | cons b t ih =>
    rw [List.nodup_cons] at h
    rcases List.mem_cons.mp ha with rfl | ha'
    · rw [List.count_cons_self, List.count_eq_zero.mpr h.1]
    · have hne : b ≠ a := fun hba => h.1 (hba ▸ ha')
      rw [List.count_cons_of_ne (Ne.symm hne), ih h.2 ha']

/-- Every relative path below one directory entry starts with that
entry's name. -/
theorem walkTree_shape (t : FileTree) :
    ∀ p ∈ walkTree t, ∃ q, p = entryName t :: q := by
  cases t with
  | file n =>
    intro p hp
    simp [walkTree] at hp
    exact ⟨[], by simp [hp, entryName]⟩
  | dir n es =>
    intro p hp
    simp only [walkTree, List.mem_map] at hp
    obtain ⟨q, hq, rfl⟩ := hp
    exact ⟨q, rfl⟩

/-- Every relative path of a directory listing comes from one of its
entries. -/
theorem walkList_mem_split (ts : List FileTree) :
    ∀ p ∈ walkList ts, ∃ t ∈ ts, p ∈ walkTree t := by
  induction ts with
  | nil => simp [walkList]
  | cons t rest ih =>
    intro p hp
    simp only [walkList] at hp
    rcases List.mem_append.mp hp with h | h
    · exact ⟨t, by simp, h⟩
    · obtain ⟨u, hu, hpu⟩ := ih p h
      exact ⟨u, by simp [hu], hpu⟩

mutual

/-- `os.walk` visits each file below a well-formed entry once: the
relative paths are distinct. -/
theorem walkTree_nodup (t : FileTree) (h : treeWf t = true) :
    (walkTree t).Nodup := by
  match t with
  | .file n => simp [walkTree]
  | .dir n es =>
    have hes : listWf es = true := by simpa [treeWf] using h
    have hn := walkList_nodup es hes
    simp only [walkTree]
    exact hn.map fun p q hpq => by simpa using hpq

/-- `os.walk` visits each file below a well-formed listing once. -/
theorem walkList_nodup (ts : List FileTree) (h : listWf ts = true) :
    (walkList ts).Nodup := by
  match ts with
  | [] => simp [walkList]
  | t :: rest =>
    simp only [listWf, Bool.and_eq_true, Bool.not_eq_true'] at h
    obtain ⟨⟨h1, h2⟩, h3⟩ := h
    simp only [walkList]
    refine List.Nodup.append (walkTree_nodup t h1) (walkList_nodup rest h3) ?_
    intro p hp hq
    obtain ⟨q1, rfl⟩ := walkTree_shape t p hp
    obtain ⟨u, hu, hpu⟩ := walkList_mem_split rest _ hq
    obtain ⟨q2, heq⟩ := walkTree_shape u _ hpu
    have hname : entryName t = entryName u := (List.cons_eq_cons.mp heq).1
    have hmem : entryName t ∈ rest.map entryName :=
      hname ▸ List.mem_map_of_mem entryName hu
    have hc : (rest.map entryName).contains (entryName t) = true := by
      simp [hmem]
    rw [h2] at hc
    exact Bool.false_ne_true hc

end

/-! ## The claims -/

/-- Claim C1, counterexample.  With listing `["a", "b", "c"]` and a fetch
engineered to fail exactly on `"b"`, the Hugging Face fetch does not
produce an outcome for all three items: the function-level `except`
aborts the loop at `"b"`, only `"a"` is downloaded, and `"c"` — whose
transfer would have succeeded — is never attempted. -/
theorem c1_counterexample :
    fetch_checkpoint_from_huggingface "" "/out" (.ok ["a", "b", "c"]) failsOnB
      = (["/out/a"], some TErr.remoteTransport)
    ∧ "/out/c" ∉
        (fetch_checkpoint_from_huggingface "" "/out" (.ok ["a", "b", "c"])
          failsOnB).1 := by decide

/-- Claim C1, amended.  A failing item aborts the transfer of the sibling
items that follow it: on a listing `pre ++ bad :: post` whose first
failing item is `bad`, the Hugging Face loop downloads exactly the items
of `pre` and reports the caught error, and the GCS loop (on non-marker
blobs) does the same with the error propagating; the items of `post`
are never attempted in either fetch. -/
theorem c1_failure_aborts_rest (out : String)
    (download : String → Except TErr Unit)
    (pre post : List String) (bad : String) (e : TErr)
    (hpre : ∀ k ∈ pre, download k = .ok ())
    (hmk : ∀ k ∈ pre, pyEndswith k "/" = false)
    (hbad : download bad = .error e)
    (hbadm : pyEndswith bad "/" = false) :
    hfLoop out download (pre ++ bad :: post)
      = (pre.map (hfLocalPath out), some e)
    ∧ gcsLoop out download (pre ++ bad :: post)
      = (pre.map (gcsLocalFilePath out), some e) :=
  ⟨hfLoop_abort out download pre post bad e hpre hbad,
   gcsLoop_abort out download pre post bad e hpre hmk hbad hbadm⟩

/-- Claim C1, witness: the amended statement at the listing
`["a"] ++ "b" :: ["c"]` with the fetch that fails exactly on `"b"`. -/
theorem c1_abort_witness :
    hfLoop "/out" failsOnB (["a"] ++ "b" :: ["c"])
      = (["a"].map (hfLocalPath "/out"), some TErr.remoteTransport)
    ∧ gcsLoop "/out" failsOnB (["a"] ++ "b" :: ["c"])
      = (["a"].map (gcsLocalFilePath "/out"), some TErr.remoteTransport) :=
  c1_failure_aborts_rest "/out" failsOnB ["a"] ["c"] "b" .remoteTransport
    (by decide) (by decide) (by decide) (by decide)

/-- Claim C2, counterexample.  The key `"../evil"` (selected by
checkpoint path `".."`) produces a work item whose local path
`/out/../evil` is not a descendant of the output root `/out`: nothing is
rejected with `InvalidKey` and the work item is produced anyway. -/
theorem c2_counterexample :
    hfPlan ".." "/out" ["../evil"] = [("../evil", "/out/../evil")]
    ∧ isDescendantOf "/out" "/out/../evil" = false := by decide

/-- Claim C2, amended.  The code performs no containment check and has no
`InvalidKey` rejection: every selected key yields a work item whose local
path is the plain `os.path.join` of the output root and the key, and a
key containing `..` segments can map outside the output root. -/
theorem c2_no_containment_check :
    (∀ ckpt out files f, f ∈ hfSelect ckpt files →
        (f, hfLocalPath out f) ∈ hfPlan ckpt out files)
    ∧ hfPlan ".." "/out2" ["../passwd"] = [("../passwd", "/out2/../passwd")]
    ∧ isDescendantOf "/out2" "/out2/../passwd" = false := by
  refine ⟨?_, by decide, by decide⟩
  intro ckpt out files f hf
  simp only [hfPlan, List.mem_map]
  exact ⟨f, hf, rfl⟩

/-- Claim C3 (confirmed).  When every fetch succeeds, the GCS fetch
downloads exactly one file per non-marker key of the listing, at its
mapped path, and the download count equals the number of non-marker
keys: no non-marker key is silently dropped. -/
theorem c3_completeness (ckptOut : String) (fetch : String → Except TErr Unit)
    (listing : List String) (h : ∀ b ∈ listing, fetch b = .ok ()) :
    (gcsLoop ckptOut fetch listing).1
      = ((listing.filter fun b => !pyEndswith b "/").map
          (gcsLocalFilePath ckptOut))
    ∧ (gcsLoop ckptOut fetch listing).1.length
      = (listing.filter fun b => !pyEndswith b "/").length := by
  have main := gcsLoop_all_ok ckptOut fetch listing h
  rw [main]
  simp

/-- Claim C3, witness: a listing with two non-marker keys and one marker
yields exactly two downloads. -/
theorem c3_listing_witness :
    (gcsLoop "/out/ckpt" (fun _ => .ok ())
        ["run42/a.bin", "run42/sub/", "run42/b.bin"]).1
      = ((["run42/a.bin", "run42/sub/", "run42/b.bin"].filter
            fun b => !pyEndswith b "/").map (gcsLocalFilePath "/out/ckpt"))
    ∧ (gcsLoop "/out/ckpt" (fun _ => .ok ())
        ["run42/a.bin", "run42/sub/", "run42/b.bin"]).1.length
      = (["run42/a.bin", "run42/sub/", "run42/b.bin"].filter
            fun b => !pyEndswith b "/").length :=
  c3_completeness "/out/ckpt" (fun _ => .ok ())
    ["run42/a.bin", "run42/sub/", "run42/b.bin"] (by decide)

/-- Claim C4 (confirmed).  A pseudo-directory marker (a key ending in
`/`) anywhere in the listing is skipped by the GCS fetch: the run is the
same as on the listing without it, so the marker produces no download
and no written file. -/
theorem c4_marker_skip (ckptOut : String) (fetch : String → Except TErr Unit)
    (m : String) (pre post : List String) (hm : pyEndswith m "/" = true) :
    gcsLoop ckptOut fetch (pre ++ m :: post)
      = gcsLoop ckptOut fetch (pre ++ post) := by
  induction pre with
  | nil => simp [gcsLoop, hm]
  | cons b rest ih =>
    simp only [List.cons_append, gcsLoop, List.append_eq]
    rw [ih]

/-- Claim C4, witness: the marker `"run42/ckpt-1000/"` is skipped. -/
theorem c4_marker_witness :
    gcsLoop "/out/ckpt" (fun _ => .ok ())
        (["run42/a.bin"] ++ "run42/ckpt-1000/" :: ["run42/b.bin"])
      = gcsLoop "/out/ckpt" (fun _ => .ok ())
        (["run42/a.bin"] ++ ["run42/b.bin"]) :=
  c4_marker_skip "/out/ckpt" (fun _ => .ok ()) "run42/ckpt-1000/"
    ["run42/a.bin"] ["run42/b.bin"] (by decide)

/-- Claim C5, counterexample.  For the nested key
`run42/ckpt-1000/sub/model.bin` under checkpoint prefix
`run42/ckpt-1000` and output root `/out`, the GCS fetch resolves the
destination to `/out/ckpt-1000/model.bin` — the key's sub-path under the
prefix is discarded, not preserved as `/out/ckpt-1000/sub/model.bin`. -/
theorem c5_counterexample :
    gcsLocalFilePath (gcsCheckpointOutputDir "/out" "run42/ckpt-1000")
        "run42/ckpt-1000/sub/model.bin" = "/out/ckpt-1000/model.bin"
    ∧ ("/out/ckpt-1000/model.bin" : String)
        ≠ "/out/ckpt-1000/sub/model.bin" := by decide

/-- Claim C5, amended.  The GCS fetch flattens every key to its basename
under the checkpoint subfolder: the top-level example key
`run42/ckpt-1000/model.bin` does resolve to `/out/ckpt-1000/model.bin`,
but the resolved path depends only on the key's basename, so nested keys
lose their intermediate structure. -/
theorem c5_flatten_to_basename :
    gcsLocalFilePath (gcsCheckpointOutputDir "/out" "run42/ckpt-1000")
        "run42/ckpt-1000/model.bin" = "/out/ckpt-1000/model.bin"
    ∧ ∀ ckpt out k₁ k₂, osPathBasename k₁ = osPathBasename k₂ →
        gcsLocalFilePath (gcsCheckpointOutputDir out ckpt) k₁
          = gcsLocalFilePath (gcsCheckpointOutputDir out ckpt) k₂ := by
  refine ⟨by decide, ?_⟩
  intro ckpt out k₁ k₂ h
  simp [gcsLocalFilePath, h]

/-- Claim C7 (confirmed).  Directory creation as the fetches perform it
(`os.makedirs(..., exist_ok=True)`) is idempotent: the second call for a
path that was already created never fails and the directory is present
exactly once afterwards.  Moreover both fetches create each destination
directory before writing a file into it: the GCS fetch writes every file
into the checkpoint output directory it created before the loop (each
written file's `dirname` is that directory, present after the `makedirs`
call), and the Hugging Face fetch runs a per-file
`os.makedirs(os.path.dirname(local_path), exist_ok=True)` before each
download, so every file it writes has its `dirname` among the created
directories. -/
theorem c7_dir_creation_idempotent (p : String) (dirs : List String)
    (ckptOut : String) (fetch : String → Except TErr Unit)
    (listing : List String) (outputDir : String)
    (download : String → Except TErr Unit) (dirs0 files : List String)
    (hcount : dirs.count p ≤ 1)
    (hck : ckptOut ≠ "") (hcks : pyEndswith ckptOut "/" = false) :
    mkdirFails true p dirs = false
    ∧ ensureLocalDirectory p (ensureLocalDirectory p dirs)
        = ensureLocalDirectory p dirs
    ∧ (ensureLocalDirectory p dirs).count p = 1
    ∧ (∀ q ∈ (gcsLoop ckptOut fetch listing).1,
        osPathDirname q = ckptOut
        ∧ ckptOut ∈ ensureLocalDirectory ckptOut dirs)
    ∧ ∀ q ∈ (hfLoopFs outputDir download dirs0 files).2.1,
        osPathDirname q ∈ (hfLoopFs outputDir download dirs0 files).1 := by
  refine ⟨by simp [mkdirFails], ?_, ?_, ?_,
    hfLoopFs_dir_before_write outputDir download files dirs0⟩
  · by_cases h : p ∈ dirs <;> simp [ensureLocalDirectory, h]
  · by_cases h : p ∈ dirs
    · have h1 : 1 ≤ dirs.count p := List.count_pos_iff.mpr h
      simp only [ensureLocalDirectory, if_pos h]
      omega
    · have h0 : dirs.count p = 0 := List.count_eq_zero.mpr h
      simp [ensureLocalDirectory, h, h0]
  · intro q hq
    obtain ⟨b, rfl⟩ := gcsLoop_written_shape ckptOut fetch listing q hq
    refine ⟨osPathDirname_join ckptOut (osPathBasename b) hck hcks
      (osPathBasename_no_sep b), ?_⟩
    by_cases h : ckptOut ∈ dirs <;> simp [ensureLocalDirectory, h]

/-- Claim C7, witness: creating `/out/ckpt-1000` twice over an empty
filesystem, the GCS fetch writing `model.bin` into it, and the Hugging
Face fetch writing `ckpt-5/model.bin` below `/hf` with its directory
created first. -/
theorem c7_dir_witness :
    mkdirFails true "/out/ckpt-1000" [] = false
    ∧ ensureLocalDirectory "/out/ckpt-1000"
          (ensureLocalDirectory "/out/ckpt-1000" [])
        = ensureLocalDirectory "/out/ckpt-1000" []
    ∧ (ensureLocalDirectory "/out/ckpt-1000" []).count "/out/ckpt-1000" = 1
    ∧ (∀ q ∈ (gcsLoop "/out/ckpt-1000" (fun _ => .ok ())
          ["run42/ckpt-1000/model.bin"]).1,
        osPathDirname q = "/out/ckpt-1000"
        ∧ "/out/ckpt-1000" ∈ ensureLocalDirectory "/out/ckpt-1000" [])
    ∧ ∀ q ∈ (hfLoopFs "/hf" (fun _ => .ok ()) []
          ["ckpt-5/model.bin"]).2.1,
        osPathDirname q
          ∈ (hfLoopFs "/hf" (fun _ => .ok ()) [] ["ckpt-5/model.bin"]).1 :=
  c7_dir_creation_idempotent "/out/ckpt-1000" [] "/out/ckpt-1000"
    (fun _ => .ok ()) ["run42/ckpt-1000/model.bin"] "/hf"
    (fun _ => .ok ()) [] ["ckpt-5/model.bin"]
    (by decide) (by decide) (by decide)

/-- Claim C8 (confirmed).  The storage-client constructor returns the
service-account client exactly when the key file path is non-empty and
names an existing file, returns the ambient/default-credentials client
exactly otherwise, and these are the only two possible results. -/
theorem c8_client_two_branches (k : String) (pathExists : String → Bool) :
    (get_storage_client k pathExists = .serviceAccount k
        ↔ k ≠ "" ∧ pathExists k = true)
    ∧ (get_storage_client k pathExists = .ambientDefault
        ↔ ¬(k ≠ "" ∧ pathExists k = true))
    ∧ (get_storage_client k pathExists = .serviceAccount k
        ∨ get_storage_client k pathExists = .ambientDefault) := by
  unfold get_storage_client
  split <;> simp_all

/-- Claim C9 (confirmed).  The upload walks the local checkpoint
directory and produces one upload per discovered file; on a well-formed
tree (distinct entry names at each level, as on a filesystem) every
discovered file is uploaded exactly once, to the remote key formed by
joining `checkpoint_path` with the file's path relative to `local_dir`,
read from the corresponding local path — the full local hierarchy is
preserved under the checkpoint prefix. -/
theorem c9_upload_each_file_once (ckptSegs locSegs : List String)
    (tree : List FileTree) (h : listWf tree = true) :
    (upload_checkpoint_to_gcs ckptSegs locSegs tree).length
      = (walkList tree).length
    ∧ ∀ rel ∈ walkList tree,
        (upload_checkpoint_to_gcs ckptSegs locSegs tree).count
            (ckptSegs ++ rel, locSegs ++ rel) = 1 := by
  constructor
  · simp [upload_checkpoint_to_gcs]
  · intro rel hrel
    have hinj : Function.Injective
        (fun rel => ((ckptSegs ++ rel, locSegs ++ rel) :
          List String × List String)) := by
      intro x y hxy
      simp only [Prod.mk.injEq] at hxy
      exact List.append_cancel_left hxy.1
    refine count_eq_one_of_nodup_of_mem
      ((walkList_nodup tree h).map hinj) ?_
    exact List.mem_map_of_mem _ hrel

/-- Claim C9, witness: uploading the example tree under
`run42/ckpt-1000` uploads `sub/model.bin` exactly once (and likewise
every other discovered file). -/
theorem c9_upload_witness :
    (upload_checkpoint_to_gcs ["run42", "ckpt-1000"] ["ckpts"]
        exampleTree).length = (walkList exampleTree).length
    ∧ ∀ rel ∈ walkList exampleTree,
        (upload_checkpoint_to_gcs ["run42", "ckpt-1000"] ["ckpts"]
            exampleTree).count
            (["run42", "ckpt-1000"] ++ rel, ["ckpts"] ++ rel) = 1 :=
  c9_upload_each_file_once ["run42", "ckpt-1000"] ["ckpts"] exampleTree
    (by decide)

/-- Claim C10 (confirmed).  The Hugging Face fetch selects a repository
file iff its full path string-starts-with the checkpoint path; the test
is a plain character-wise one, so checkpoint path `"ckpt-1"` also
selects files under `"ckpt-10/"` and the file `"ckpt-1x"`. -/
theorem c10_plain_string_filter (files : List String) (ckpt f : String) :
    (f ∈ hfSelect ckpt files ↔ f ∈ files ∧ pyStartswith f ckpt = true)
    ∧ hfSelect "ckpt-1" ["ckpt-10/model.bin", "ckpt-1x", "ckpt-1/w.bin", "other/f"]
      = ["ckpt-10/model.bin", "ckpt-1x", "ckpt-1/w.bin"] := by
  refine ⟨?_, by decide⟩
  simp [hfSelect, List.mem_filter]

/-- Claim C6 (confirmed against the executor modelled from the spec).
Running the executor with `concurrency = 8` and with `concurrency = 1`
on identical work items produces reports with identical outcome sets
(the outcome lists are permutations of each other), `concurrency = 1`
degrades to fully sequential execution in submission order, and no round
has more than 8 transfers in flight. -/
theorem c6_order_independence (fetch : String → Except TErr Unit)
    (items : List (String × String)) :
    (executeConc 8 fetch items).Perm (executeConc 1 fetch items)
    ∧ executeConc 1 fetch items = items.map (itemOutcome fetch)
    ∧ ∀ r ∈ rounds 8 items, r.length ≤ 8 := by
  refine ⟨?_, ?_, ?_⟩
  · exact ((schedule_perm 8 items).map _).trans
      (((schedule_perm 1 items).map _).symm)
  · unfold executeConc
    rw [schedule_one]
  · exact roundsAux_bound 8 (by omega) items.length items (Nat.le_refl _)

end CkptSync
